import Mathlib

/-!
Verification development for the FreeRTOS memory-management labs
(`07-memory-management/practice`): a shallow embedding of the fixed-block
memory-pool allocator (`memory_pools.c`) and of the heap allocation
tracker (`heap_management.c`), together with proofs and refutations of
the specified properties.

Modelling conventions:
* C machine integers (`size_t`, `uint32_t`, `uint64_t`) are modelled as
  `Nat`; the developments show the only decrements performed
  (`allocated_blocks--`, `current_allocations--`) happen when the value
  is positive, so no wrap-around is reachable and `Nat` is faithful.
* The embedding is single-threaded: `xSemaphoreTake` on an uncontended
  mutex with a 100 ms timeout succeeds, so the take is modelled as
  succeeding whenever the mutex handle is non-NULL (`mutexValid`).
  Where a claim explicitly quantifies over a failed take
  (`tracked_free`), the take outcome is an explicit `takeOk` parameter.
* Pointers into a pool are represented by the index of the block whose
  header they point past; the intrusive `next` chain threaded through
  block headers is represented by the pool's list of free block indices
  (head of the list = head of the chain).  Reading a header through an
  address outside the pool's block array yields the garbage header
  `⟨0, 0, 0⟩`, which fails validation — the claims under study all
  assume "no header corruption", i.e. no garbage header happens to
  spell a valid allocated block.
* GPIO LED writes are side channels, not program state; where a claim
  mentions the error report they are surfaced as extra `Bool` results
  (`errorLed` from `pool_free`).
* `esp_timer_get_time()` is an explicit `now : Nat` parameter.
-/

namespace MemPools

/-- Constant `POOL_MAGIC_FREE` (`0xDEADBEEF`). -/
def POOL_MAGIC_FREE : Nat := 0xDEADBEEF

/-- Constant `POOL_MAGIC_ALLOC` (`0xCAFEBABE`). -/
def POOL_MAGIC_ALLOC : Nat := 0xCAFEBABE

/-- The per-block header `memory_block_t`.  The intrusive `next` pointer is
represented by the position of the block's index in the pool's
`free_list`; the remaining fields are carried here. -/
structure BlockHeader where
  magic : Nat
  pool_id : Nat
  alloc_time : Nat
  deriving Repr, DecidableEq

/-- The garbage header obtained by reading through a pointer that is not a
payload pointer of this pool.  Its `magic` is neither `POOL_MAGIC_FREE`
nor `POOL_MAGIC_ALLOC`, so it never validates. -/
def garbageHeader : BlockHeader := ⟨0, 0, 0⟩

/-- Structure `memory_pool_t`.  Here `blocks i` is the header of block `i`
(indices `0 ≤ i < block_count` are the pool's memory; other indices read
as `garbageHeader`).  `free_list` is the chain of free block indices
rooted at the C `free_list` head.  The unused-in-source `usage_bitmap`
is omitted; `allocation_time_total`/`deallocation_time_total` are kept
(the source never updates them).  `mutexValid` models the mutex handle
being non-NULL. -/
structure Pool where
  name : String
  block_size : Nat
  block_count : Nat
  alignment : Nat
  caps : Nat
  blocks : Nat → BlockHeader
  free_list : List Nat
  allocated_blocks : Nat
  peak_usage : Nat
  total_allocations : Nat
  total_deallocations : Nat
  allocation_time_total : Nat
  deallocation_time_total : Nat
  allocation_failures : Nat
  mutexValid : Bool
  pool_id : Nat

/-- Function `init_memory_pool`: zeroes the pool record, installs the configured
sizes, formats every block header as `FREE` with this pool's id, and
pushes blocks `0, 1, …, block_count-1` onto the free list in that order
(so block `block_count-1` ends up at the head), then creates the mutex. -/
def init_memory_pool (name : String) (block_size block_count caps pool_id : Nat) :
    Pool where
  name := name
  block_size := block_size
  block_count := block_count
  alignment := 4
  caps := caps
  blocks := fun i =>
    if i < block_count then ⟨POOL_MAGIC_FREE, pool_id, 0⟩ else garbageHeader
  free_list := (List.range block_count).reverse
  allocated_blocks := 0
  peak_usage := 0
  total_allocations := 0
  total_deallocations := 0
  allocation_time_total := 0
  deallocation_time_total := 0
  allocation_failures := 0
  mutexValid := true
  pool_id := pool_id

/-- Function `pool_malloc`: NULL-checks the pool's mutex, then pops the free-list
head if any, tags it `POOL_MAGIC_ALLOC`, stamps `alloc_time`, bumps
`allocated_blocks` and `total_allocations`, and returns the block;
on an empty free list it bumps `allocation_failures` (and lights
`LED_POOL_FULL`) and returns NULL (`none`).  `peak_usage` is not
touched by the source. -/
def pool_malloc (p : Pool) (now : Nat) : Option Nat × Pool :=
  if p.mutexValid then
    match p.free_list with
    | [] => (none, { p with allocation_failures := p.allocation_failures + 1 })
    | b :: rest =>
      (some b,
        { p with
          free_list := rest
          blocks := Function.update p.blocks b
            { p.blocks b with magic := POOL_MAGIC_ALLOC, alloc_time := now }
          allocated_blocks := p.allocated_blocks + 1
          total_allocations := p.total_allocations + 1 })
  else (none, p)

/-- Function `pool_free` on a non-NULL payload pointer recovered to block index
`i`.  Returns `(ret, errorLed, pool')`: `ret` is the C `bool` result —
`true` on every path past the NULL checks — and `errorLed` records the
`LED_POOL_ERROR` write taken on validation failure.  Validation accepts
exactly `magic == POOL_MAGIC_ALLOC && pool_id == pool->pool_id`; on
success the block is re-tagged `FREE` and pushed on the free-list head,
`allocated_blocks` is decremented and `total_deallocations` bumped;
on failure nothing in the pool is mutated. -/
def pool_free (p : Pool) (i : Nat) : Bool × Bool × Pool :=
  if p.mutexValid then
    if (p.blocks i).magic = POOL_MAGIC_ALLOC ∧ (p.blocks i).pool_id = p.pool_id then
      (true, false,
        { p with
          blocks := Function.update p.blocks i
            { p.blocks i with magic := POOL_MAGIC_FREE }
          free_list := i :: p.free_list
          allocated_blocks := p.allocated_blocks - 1
          total_deallocations := p.total_deallocations + 1 })
    else (true, true, p)
  else (false, false, p)

/-- A client operation on a single pool: an allocation attempt at time
`now`, or a release of the payload pointer of block `i`. -/
inductive PoolOp where
  | alloc (now : Nat)
  | free (i : Nat)

/-- Apply one operation to the pool (discarding the returned pointer or
status). -/
def applyOp (p : Pool) : PoolOp → Pool
  | .alloc now => (pool_malloc p now).2
  | .free i => (pool_free p i).2.2

/-- Run a sequence of operations left to right. -/
def runOps (p : Pool) (ops : List PoolOp) : Pool :=
  ops.foldl applyOp p

/-- A default pool used only to give `List.getD` a value; its invalid
mutex makes every operation on it a no-op, like the NULL-pool guard. -/
def poolDefault : Pool :=
  { name := ""
    block_size := 0
    block_count := 0
    alignment := 0
    caps := 0
    blocks := fun _ => garbageHeader
    free_list := []
    allocated_blocks := 0
    peak_usage := 0
    total_allocations := 0
    total_deallocations := 0
    allocation_time_total := 0
    deallocation_time_total := 0
    allocation_failures := 0
    mutexValid := false
    pool_id := 0 }

/-- A pointer value passed to the smart allocator API: `NULL`, a payload
pointer into block `blk` of `pools[pool]`, or a pointer obtained from the
general-purpose heap (`heap_caps_malloc`), whose preceding bytes read as
the garbage header `hdr`. -/
inductive Ptr where
  | null
  | poolPtr (pool : Nat) (blk : Nat)
  | genPtr (hdr : BlockHeader)
  deriving Repr, DecidableEq

/-- The global state seen by `smart_pool_malloc`/`smart_pool_free`: the
`pools[POOL_COUNT]` array, counters of how many times the general-purpose
allocator (`heap_caps_malloc`/`heap_caps_free`) has been invoked, and a
flag recording the unrepresentable corruption the source would commit if
a header outside a pool ever validated against that pool (splicing a
foreign block into its free list). -/
structure World where
  pools : List Pool
  generalAllocs : Nat
  generalFreed : Nat
  corrupted : Bool

/-- Replace `pools[i]`. -/
def setPool (w : World) (i : Nat) (p : Pool) : World :=
  { w with pools := w.pools.set i p }

/-- Dereference the header `(memory_block_t*)((uint8_t*)ptr - sizeof(memory_block_t))`. -/
def readHeader (w : World) : Ptr → BlockHeader
  | .null => garbageHeader
  | .poolPtr pi bi =>
    let p := w.pools.getD pi poolDefault
    if bi < p.block_count then p.blocks bi else garbageHeader
  | .genPtr hdr => hdr

/-- Call `pool_free(&pools[j], ptr)` at the world level.  Mirrors `pool_free`:
returns `false` only on the NULL guards (`!pool || !ptr || !pool->mutex`),
otherwise `true`; validates the header read through `ptr` against
`pools[j]`; on success for a pointer that really lies in `pools[j]` it
performs the free there; if a header from elsewhere validated (possible
only when pool ids collide, which `app_main`'s `i + 1` ids never produce)
the source would corrupt `pools[j]`'s free list — recorded by the
`corrupted` flag. -/
def wpool_free (w : World) (j : Nat) (ptr : Ptr) : Bool × World :=
  match ptr with
  | .null => (false, w)
  | _ =>
    let pj := w.pools.getD j poolDefault
    if pj.mutexValid then
      let hdr := readHeader w ptr
      if hdr.magic = POOL_MAGIC_ALLOC ∧ hdr.pool_id = pj.pool_id then
        match ptr with
        | .poolPtr pi bi =>
          if pi = j then (true, setPool w j (pool_free pj bi).2.2)
          else (true, { w with corrupted := true })
        | _ => (true, { w with corrupted := true })
      else (true, w)
    else (false, w)

/-- Result of `smart_pool_malloc`: a payload pointer of block `blk` of
`pools[pool]`, a pointer from the general allocator, or NULL (general
allocation failed — collapsed with success into `general`, since the
claims only concern which allocator served the request). -/
inductive AllocSource where
  | fromPool (pool : Nat) (blk : Nat)
  | general
  deriving Repr, DecidableEq

/-- The `for (i = 0; i < POOL_COUNT; i++)` body of `smart_pool_malloc`
over the remaining pool indices `l`: skips a class whose `block_size` is
below `size + 16`, otherwise attempts `pool_malloc` on it, returning on
success and continuing (with the failure-bumped pool stored back) on
failure. -/
def smart_malloc_loop (size now : Nat) : List Nat → World → Option (Nat × Nat) × World
  | [], w => (none, w)
  | i :: rest, w =>
    let p := w.pools.getD i poolDefault
    if size + 16 ≤ p.block_size then
      match pool_malloc p now with
      | (some b, p') => (some (i, b), setPool w i p')
      | (none, p') => smart_malloc_loop size now rest (setPool w i p')
    else smart_malloc_loop size now rest w

/-- Function `smart_pool_malloc(size)`: with `required = size + 16`, scans the pools in
index order trying each class that fits; if no pool served the request,
falls back to `heap_caps_malloc(size, MALLOC_CAP_DEFAULT)`. -/
def smart_pool_malloc (w : World) (size now : Nat) : AllocSource × World :=
  match smart_malloc_loop size now (List.range w.pools.length) w with
  | (some (i, b), w') => (.fromPool i b, w')
  | (none, w') => (.general, { w' with generalAllocs := w'.generalAllocs + 1 })

/-- The `for` loop of `smart_pool_free` over the remaining pool indices:
returns as soon as some `pool_free(&pools[i], ptr)` returns `true`. -/
def smart_free_loop (ptr : Ptr) : List Nat → World → Bool × World
  | [], w => (false, w)
  | j :: rest, w =>
    match wpool_free w j ptr with
    | (true, w') => (true, w')
    | (false, w') => smart_free_loop ptr rest w'

/-- Function `smart_pool_free(ptr)`: tries `pool_free` on each pool in turn and
returns `true` at the first that returns `true`; only if every pool
returned `false` does it reach `heap_caps_free(ptr)` (after which it also
returns `true`). -/
def smart_pool_free (w : World) (ptr : Ptr) : Bool × World :=
  match smart_free_loop ptr (List.range w.pools.length) w with
  | (true, w') => (true, w')
  | (false, w') => (true, { w' with generalFreed := w'.generalFreed + 1 })

/-- The single-pool state invariant maintained by `pool_malloc` and
`pool_free` from a freshly initialized pool: the free list is a
duplicate-free list of in-range block indices, a block header reads
`POOL_MAGIC_ALLOC` exactly when it is an in-range block off the free
list, `allocated_blocks` complements the free-list length, and the
allocation/deallocation counters balance. -/
def PoolInv (K pid : Nat) (p : Pool) : Prop :=
  p.block_count = K ∧
  p.pool_id = pid ∧
  p.mutexValid = true ∧
  p.free_list.Nodup ∧
  (∀ j ∈ p.free_list, j < K) ∧
  (∀ i, (p.blocks i).magic = POOL_MAGIC_ALLOC ↔ i < K ∧ i ∉ p.free_list) ∧
  p.allocated_blocks + p.free_list.length = K ∧
  p.total_allocations = p.total_deallocations + p.allocated_blocks

/-- The pool state after allocating block 1 from a fresh two-block pool
and releasing it once: the scenario of the double-free counterexample
and witness (the second release of the same pointer must now fail
validation). -/
def doubleFreePool : Pool :=
  (pool_free ((pool_malloc (init_memory_pool "Small" 64 2 0 1) 0).2) 1).2.2

/-- Specification-side predicate for the dispatcher scan: size class `i`
fits `size + 16` and currently has a free block. -/
def fitsAvailable (w : World) (size i : Nat) : Bool :=
  decide (size + 16 ≤ (w.pools.getD i poolDefault).block_size) &&
    !(w.pools.getD i poolDefault).free_list.isEmpty

/-- A three-class pool registry `[64, 256, 1024]` (as in the claim) in
which the 256-byte pool (one block) has been exhausted by a prior
allocation, while the 64- and 1024-byte pools still have free blocks. -/
def worldC1 : World :=
  { pools := [init_memory_pool "Small" 64 1 0 1,
      (pool_malloc (init_memory_pool "Medium" 256 1 0 2) 0).2,
      init_memory_pool "Large" 1024 2 0 3]
    generalAllocs := 0
    generalFreed := 0
    corrupted := false }

/-- A one-pool registry for the `smart_pool_free` claim. -/
def worldC7 : World :=
  { pools := [init_memory_pool "Small" 64 2 0 1]
    generalAllocs := 0
    generalFreed := 0
    corrupted := false }

end MemPools

namespace HeapMgmt

/-- Constant `MAX_ALLOCATIONS`. -/
def MAX_ALLOCATIONS : Nat := 100

/-- Structure `memory_allocation_t`.  A `void*` is modelled as a `Nat` address with
`0` for NULL. -/
structure MemAllocation where
  ptr : Nat
  size : Nat
  caps : Nat
  description : String
  timestamp : Nat
  is_active : Bool
  deriving Repr, DecidableEq

instance : Inhabited MemAllocation :=
  ⟨{ ptr := 0, size := 0, caps := 0, description := "", timestamp := 0,
     is_active := false }⟩

/-- Structure `memory_stats_t`. -/
structure MemoryStats where
  total_allocations : Nat
  total_deallocations : Nat
  current_allocations : Nat
  total_bytes_allocated : Nat
  total_bytes_deallocated : Nat
  peak_usage : Nat
  allocation_failures : Nat
  fragmentation_events : Nat
  low_memory_events : Nat
  deriving Repr, DecidableEq

/-- The tracker's global state: the `allocations[MAX_ALLOCATIONS]` table
(a list of length `MAX_ALLOCATIONS`), `stats`, the
`memory_monitoring_enabled` flag and the validity of `memory_mutex`. -/
structure TrackerState where
  allocations : List MemAllocation
  stats : MemoryStats
  monitoring_enabled : Bool
  mutexValid : Bool
  deriving Repr, DecidableEq

/-- Function `find_free_allocation_slot`: the `for (i = 0; i < MAX_ALLOCATIONS; i++)`
scan returning the first index whose slot is inactive, `none` for the C
`-1`. -/
def find_free_allocation_slot (a : List MemAllocation) : Option Nat :=
  (List.range MAX_ALLOCATIONS).find? fun i => !(a.getD i default).is_active

/-- Function `find_allocation_by_ptr`: the scan returning the first index whose
slot is active and holds `ptr`, `none` for the C `-1`. -/
def find_allocation_by_ptr (a : List MemAllocation) (ptr : Nat) : Option Nat :=
  (List.range MAX_ALLOCATIONS).find? fun i =>
    (a.getD i default).is_active && (a.getD i default).ptr == ptr

/-- Function `tracked_malloc(size, caps, description)`.  The raw
`heap_caps_malloc` outcome is the explicit `rawResult` parameter and is
always what the caller receives; `takeOk` is the `xSemaphoreTake`
outcome.  Under monitoring with the mutex held: a successful raw
allocation is recorded in the first inactive slot, bumping
`total_allocations`/`current_allocations`/`total_bytes_allocated` and
raising `peak_usage` to the new outstanding-bytes figure if larger;
with no inactive slot only a capacity warning is logged; a failed raw
allocation bumps `allocation_failures`. -/
def tracked_malloc (st : TrackerState) (size caps : Nat) (description : String)
    (rawResult : Option Nat) (now : Nat) (takeOk : Bool) :
    Option Nat × TrackerState :=
  if st.monitoring_enabled && st.mutexValid && takeOk then
    match rawResult with
    | some p =>
      match find_free_allocation_slot st.allocations with
      | some slot =>
        let stats' :=
          { st.stats with
            total_allocations := st.stats.total_allocations + 1
            current_allocations := st.stats.current_allocations + 1
            total_bytes_allocated := st.stats.total_bytes_allocated + size }
        let current_usage :=
          stats'.total_bytes_allocated - stats'.total_bytes_deallocated
        (some p,
          { st with
            allocations := st.allocations.set slot
              { ptr := p, size := size, caps := caps,
                description := description, timestamp := now,
                is_active := true }
            stats :=
              if stats'.peak_usage < current_usage then
                { stats' with peak_usage := current_usage }
              else stats' })
      | none => (some p, st)
    | none =>
      (none,
        { st with stats :=
          { st.stats with
            allocation_failures := st.stats.allocation_failures + 1 } })
  else (rawResult, st)

/-- Function `tracked_free(ptr, description)`.  Returns the number of
`heap_caps_free` invocations this call performs (`0` for NULL, else `1`)
along with the new tracker state.  Under monitoring with the mutex held,
the first active slot holding `ptr` (if any) is deactivated and the
deallocation counters updated; in every other case the tracker is
untouched.  `heap_caps_free(ptr)` runs unconditionally for non-NULL
`ptr`, after (and independently of) the bookkeeping. -/
def tracked_free (st : TrackerState) (ptr : Nat) (_description : String)
    (takeOk : Bool) : Nat × TrackerState :=
  if ptr = 0 then (0, st)
  else
    let st' :=
      if st.monitoring_enabled && st.mutexValid && takeOk then
        match find_allocation_by_ptr st.allocations ptr with
        | some slot =>
          let a := st.allocations.getD slot default
          { st with
            allocations := st.allocations.set slot { a with is_active := false }
            stats :=
              { st.stats with
                total_deallocations := st.stats.total_deallocations + 1
                current_allocations := st.stats.current_allocations - 1
                total_bytes_deallocated :=
                  st.stats.total_bytes_deallocated + a.size } }
        | none => st
      else st
    (1, st')

/-- Function `detect_memory_leaks`: under the mutex, scans the table and reports
(logs) every active slot whose age `(now - timestamp) / 1000` in
milliseconds exceeds `30000`; returns the reported slot indices.  The
tracker state is returned unchanged — the scan only reads. -/
def detect_memory_leaks (st : TrackerState) (now : Nat) (takeOk : Bool) :
    List Nat × TrackerState :=
  if st.mutexValid && takeOk then
    ((List.range MAX_ALLOCATIONS).filter fun i =>
      (st.allocations.getD i default).is_active &&
        30000 < (now - (st.allocations.getD i default).timestamp) / 1000,
      st)
  else ([], st)

/-- A tracker table with all 100 slots active (for the C8 witness). -/
def fullTableC8 : TrackerState where
  allocations := List.replicate MAX_ALLOCATIONS
    { ptr := 1, size := 4, caps := 0, description := "old",
      timestamp := 0, is_active := true }
  stats := ⟨3, 1, 2, 12, 4, 12, 0, 0, 0⟩
  monitoring_enabled := true
  mutexValid := true

/-- A tracker table whose slot 0 holds an entry recorded at time 7 with
no matching release (for the C9 witness). -/
def leakTableC9 : TrackerState where
  allocations :=
    { ptr := 1000, size := 40, caps := 8, description := "d",
      timestamp := 7, is_active := true } :: List.replicate 99 default
  stats := ⟨1, 0, 1, 40, 0, 40, 0, 0, 0⟩
  monitoring_enabled := true
  mutexValid := true

/-- A tracker table with a single active entry for pointer 5 (for the
C10 witness). -/
def singleEntryC10 : TrackerState where
  allocations :=
    { ptr := 5, size := 16, caps := 0, description := "buf",
      timestamp := 3, is_active := true } :: List.replicate 99 default
  stats := ⟨1, 0, 1, 16, 0, 16, 0, 0, 0⟩
  monitoring_enabled := true
  mutexValid := true

end HeapMgmt

/-! ## Helper lemmas -/

namespace MemPools

/-- Unfolding `runOps` one step. -/
theorem runOps_cons (p : Pool) (op : PoolOp) (ops : List PoolOp) :
    runOps p (op :: ops) = runOps (applyOp p op) ops := rfl

/-- Running `runOps` over a concatenation. -/
theorem runOps_append (p : Pool) (l₁ l₂ : List PoolOp) :
    runOps p (l₁ ++ l₂) = runOps (runOps p l₁) l₂ :=
  List.foldl_append ..

/-- A duplicate-free list of naturals below `K` avoiding some `i < K`
has length below `K`. -/
theorem length_lt_of_nodup_lt_avoid {l : List Nat} {K i : Nat}
    (hnd : l.Nodup) (hmem : ∀ j ∈ l, j < K) (hi : i < K) (hni : i ∉ l) :
    l.length < K := by
  have hcard : l.toFinset.card = l.length := List.toFinset_card_of_nodup hnd
  have hsub : l.toFinset ⊆ (Finset.range K).erase i := by
    intro j hj
    rw [List.mem_toFinset] at hj
    exact Finset.mem_erase.2 ⟨fun he => hni (he ▸ hj), Finset.mem_range.2 (hmem j hj)⟩
  have := Finset.card_le_card hsub
  rw [hcard, Finset.card_erase_of_mem (Finset.mem_range.2 hi), Finset.card_range] at this
  omega

/-- Unfolding `pool_malloc` on an empty free list. -/
theorem pool_malloc_nil {p : Pool} (now : Nat) (hm : p.mutexValid = true)
    (hfl : p.free_list = []) :
    pool_malloc p now =
      (none, { p with allocation_failures := p.allocation_failures + 1 }) := by
  rw [pool_malloc, if_pos hm, hfl]

/-- Unfolding `pool_malloc` on a non-empty free list. -/
theorem pool_malloc_cons {p : Pool} (now : Nat) {b : Nat} {rest : List Nat}
    (hm : p.mutexValid = true) (hfl : p.free_list = b :: rest) :
    pool_malloc p now =
      (some b,
        { p with
          free_list := rest
          blocks := Function.update p.blocks b
            { p.blocks b with magic := POOL_MAGIC_ALLOC, alloc_time := now }
          allocated_blocks := p.allocated_blocks + 1
          total_allocations := p.total_allocations + 1 }) := by
  rw [pool_malloc, if_pos hm, hfl]

/-- Unfolding `pool_free` on a block passing validation. -/
theorem pool_free_valid {p : Pool} {i : Nat} (hm : p.mutexValid = true)
    (hval : (p.blocks i).magic = POOL_MAGIC_ALLOC ∧
      (p.blocks i).pool_id = p.pool_id) :
    pool_free p i =
      (true, false,
        { p with
          blocks := Function.update p.blocks i
            { p.blocks i with magic := POOL_MAGIC_FREE }
          free_list := i :: p.free_list
          allocated_blocks := p.allocated_blocks - 1
          total_deallocations := p.total_deallocations + 1 }) := by
  rw [pool_free, if_pos hm, if_pos hval]

/-- Unfolding `pool_free` on a block failing validation: the pool is
returned untouched, the call still reports `true`, the error LED is lit. -/
theorem pool_free_invalid {p : Pool} {i : Nat} (hm : p.mutexValid = true)
    (hval : ¬((p.blocks i).magic = POOL_MAGIC_ALLOC ∧
      (p.blocks i).pool_id = p.pool_id)) :
    pool_free p i = (true, true, p) := by
  rw [pool_free, if_pos hm, if_neg hval]

/-- The two magic constants are distinct, and the garbage header never
carries the allocated magic. -/
theorem magic_free_ne_alloc : POOL_MAGIC_FREE ≠ POOL_MAGIC_ALLOC := by decide

/-- The freshly initialized pool satisfies the invariant. -/
theorem init_PoolInv (name : String) (bsz K caps pid : Nat) :
    PoolInv K pid (init_memory_pool name bsz K caps pid) := by
  refine ⟨rfl, rfl, rfl, ?_, ?_, ?_, ?_, rfl⟩
  · exact List.nodup_reverse.2 (List.nodup_range K)
  · intro j hj
    rw [init_memory_pool] at hj
    rw [List.mem_reverse, List.mem_range] at hj
    exact hj
  · intro i
    have hmem : ∀ {j : Nat}, j < K →
        j ∈ (init_memory_pool name bsz K caps pid).free_list := by
      intro j hj
      rw [init_memory_pool]
      rw [List.mem_reverse, List.mem_range]
      exact hj
    constructor
    · intro h
      exfalso
      show False
      by_cases hi : i < K
      · have : ((init_memory_pool name bsz K caps pid).blocks i).magic
            = POOL_MAGIC_FREE := by
          show (if i < K then (⟨POOL_MAGIC_FREE, pid, 0⟩ : BlockHeader)
              else garbageHeader).magic = POOL_MAGIC_FREE
          rw [if_pos hi]
        rw [this] at h
        exact magic_free_ne_alloc h
      · have : ((init_memory_pool name bsz K caps pid).blocks i).magic = 0 := by
          show (if i < K then (⟨POOL_MAGIC_FREE, pid, 0⟩ : BlockHeader)
              else garbageHeader).magic = 0
          rw [if_neg hi]
          rfl
        rw [this] at h
        exact absurd h (by decide)
    · rintro ⟨hi, hni⟩
      exact absurd (hmem hi) hni
  · show 0 + ((List.range K).reverse).length = K
    simp

/-- One operation preserves the invariant. -/
theorem applyOp_PoolInv {K pid : Nat} {p : Pool} (h : PoolInv K pid p)
    (op : PoolOp) : PoolInv K pid (applyOp p op) := by
  obtain ⟨hK, hpid, hmut, hnd, hlt, hmagic, hlen, hcnt⟩ := h
  cases op with
  | alloc now =>
    show PoolInv K pid (pool_malloc p now).2
    cases hfl : p.free_list with
    | nil =>
      rw [pool_malloc_nil now hmut hfl]
      exact ⟨hK, hpid, hmut, hnd, hlt, hmagic, by rw [hfl] at hlen ⊢; exact hlen, hcnt⟩
    | cons b rest =>
      rw [pool_malloc_cons now hmut hfl]
      rw [hfl] at hnd hlt hmagic hlen
      have hbK : b < K := hlt b (List.mem_cons_self b rest)
      have hbrest : b ∉ rest := (List.nodup_cons.1 hnd).1
      refine ⟨hK, hpid, hmut, (List.nodup_cons.1 hnd).2, ?_, ?_, ?_, ?_⟩
      · intro j hj
        exact hlt j (List.mem_cons_of_mem b hj)
      · intro i
        show (Function.update p.blocks b _ i).magic = POOL_MAGIC_ALLOC ↔ _
        by_cases hib : i = b
        · subst hib
          rw [Function.update_same]
          exact ⟨fun _ => ⟨hbK, hbrest⟩, fun _ => rfl⟩
        · rw [Function.update_noteq hib, hmagic i]
          constructor
          · rintro ⟨hi, hni⟩
            exact ⟨hi, fun hmem => hni (List.mem_cons_of_mem b hmem)⟩
          · rintro ⟨hi, hni⟩
            refine ⟨hi, fun hmem => ?_⟩
            rcases List.mem_cons.1 hmem with he | hmm
            · exact hib he
            · exact hni hmm
      · show p.allocated_blocks + 1 + rest.length = K
        rw [List.length_cons] at hlen
        omega
      · show p.total_allocations + 1 = p.total_deallocations + (p.allocated_blocks + 1)
        omega
  | free i =>
    show PoolInv K pid (pool_free p i).2.2
    by_cases hval : (p.blocks i).magic = POOL_MAGIC_ALLOC ∧ (p.blocks i).pool_id = p.pool_id
    · rw [pool_free_valid hmut hval]
      obtain ⟨hiK, hni⟩ := (hmagic i).1 hval.1
      have halloc : 1 ≤ p.allocated_blocks := by
        have := length_lt_of_nodup_lt_avoid hnd hlt hiK hni
        omega
      refine ⟨hK, hpid, hmut, List.nodup_cons.2 ⟨hni, hnd⟩, ?_, ?_, ?_, ?_⟩
      · intro j hj
        rcases List.mem_cons.1 hj with he | hmm
        · exact he ▸ hiK
        · exact hlt j hmm
      · intro j
        show (Function.update p.blocks i _ j).magic = POOL_MAGIC_ALLOC ↔ _
        by_cases hji : j = i
        · subst hji
          rw [Function.update_same]
          constructor
          · intro h
            exact absurd h magic_free_ne_alloc
          · rintro ⟨_, hnj⟩
            exact absurd (List.mem_cons_self j _) hnj
        · rw [Function.update_noteq hji, hmagic j]
          constructor
          · rintro ⟨hj, hnj⟩
            refine ⟨hj, fun hmem => ?_⟩
            rcases List.mem_cons.1 hmem with he | hmm
            · exact hji he
            · exact hnj hmm
          · rintro ⟨hj, hnj⟩
            exact ⟨hj, fun hmem => hnj (List.mem_cons_of_mem i hmem)⟩
      · show p.allocated_blocks - 1 + (i :: p.free_list).length = K
        rw [List.length_cons]
        omega
      · show p.total_allocations = p.total_deallocations + 1 + (p.allocated_blocks - 1)
        omega
    · rw [pool_free_invalid hmut hval]
      exact ⟨hK, hpid, hmut, hnd, hlt, hmagic, hlen, hcnt⟩

/-- The invariant holds in every reachable pool state. -/
theorem runOps_PoolInv {K pid : Nat} {p : Pool} (h : PoolInv K pid p)
    (ops : List PoolOp) : PoolInv K pid (runOps p ops) := by
  induction ops generalizing p with
  | nil => exact h
  | cons op ops ih => exact ih (applyOp_PoolInv h op)

end MemPools

namespace MemPools

/-- Operation application never changes `peak_usage`: neither `pool_malloc` nor
`pool_free` mentions the field. -/
theorem applyOp_peak_usage (p : Pool) (op : PoolOp) :
    (applyOp p op).peak_usage = p.peak_usage := by
  cases op with
  | alloc now =>
    show (pool_malloc p now).2.peak_usage = p.peak_usage
    by_cases hm : p.mutexValid = true
    · cases hfl : p.free_list with
      | nil => rw [pool_malloc_nil now hm hfl]
      | cons b rest => rw [pool_malloc_cons now hm hfl]
    · rw [pool_malloc, if_neg hm]
  | free i =>
    show (pool_free p i).2.2.peak_usage = p.peak_usage
    by_cases hm : p.mutexValid = true
    · by_cases hval : (p.blocks i).magic = POOL_MAGIC_ALLOC ∧
          (p.blocks i).pool_id = p.pool_id
      · rw [pool_free_valid hm hval]
      · rw [pool_free_invalid hm hval]
    · rw [pool_free, if_neg hm]

/-- The field `peak_usage` is constant across any operation sequence. -/
theorem runOps_peak_usage (p : Pool) (ops : List PoolOp) :
    (runOps p ops).peak_usage = p.peak_usage := by
  induction ops generalizing p with
  | nil => rfl
  | cons op ops ih =>
    rw [runOps_cons, ih, applyOp_peak_usage]

/-- The state reached from a fresh pool of `K` blocks by `n ≤ K`
allocation attempts: all of them succeed, consuming the free list from
its head downwards, with no failures and no deallocations. -/
theorem runOps_replicate_alloc (name : String) (bsz K caps pid : Nat)
    (n : Nat) (hn : n ≤ K) :
    (runOps (init_memory_pool name bsz K caps pid)
        (List.replicate n (PoolOp.alloc 0))).free_list
        = (List.range (K - n)).reverse ∧
    (runOps (init_memory_pool name bsz K caps pid)
        (List.replicate n (PoolOp.alloc 0))).allocated_blocks = n ∧
    (runOps (init_memory_pool name bsz K caps pid)
        (List.replicate n (PoolOp.alloc 0))).total_allocations = n ∧
    (runOps (init_memory_pool name bsz K caps pid)
        (List.replicate n (PoolOp.alloc 0))).total_deallocations = 0 ∧
    (runOps (init_memory_pool name bsz K caps pid)
        (List.replicate n (PoolOp.alloc 0))).allocation_failures = 0 ∧
    (runOps (init_memory_pool name bsz K caps pid)
        (List.replicate n (PoolOp.alloc 0))).mutexValid = true := by
  induction n with
  | zero => exact ⟨rfl, rfl, rfl, rfl, rfl, rfl⟩
  | succ m ih =>
    obtain ⟨hfl, hab, hta, htd, haf, hmv⟩ := ih (Nat.le_of_succ_le hn)
    have hm : m < K := hn
    have hrange : (List.range (K - m)).reverse
        = (K - m - 1) :: (List.range (K - m - 1)).reverse := by
      have h1 : K - m = (K - m - 1) + 1 := by omega
      rw [h1, List.range_succ, List.reverse_append]
      rfl
    rw [List.replicate_succ', runOps_append]
    set q := runOps (init_memory_pool name bsz K caps pid)
      (List.replicate m (PoolOp.alloc 0)) with hq
    have hflq : q.free_list = (K - m - 1) :: (List.range (K - m - 1)).reverse := by
      rw [hfl, hrange]
    show _ ∧ _ ∧ _ ∧ _ ∧ _ ∧ _
    rw [show runOps q [PoolOp.alloc 0] = (pool_malloc q 0).2 from rfl,
      pool_malloc_cons 0 hmv hflq]
    refine ⟨?_, ?_, ?_, ?_, ?_, ?_⟩
    · show (List.range (K - m - 1)).reverse = (List.range (K - (m + 1))).reverse
      congr 1
    · show q.allocated_blocks + 1 = m + 1
      rw [hab]
    · show q.total_allocations + 1 = m + 1
      rw [hta]
    · exact htd
    · exact haf
    · exact hmv

end MemPools

/-! ## Claim theorems: memory pools -/

namespace MemPools

/-- C3 counterexample: after a single successful allocation from a fresh
one-block pool, `allocated_blocks = 1` but `peak_usage = 0`, so the
claimed invariant `peak_usage ≥ allocated_blocks` is already false —
`pool_malloc` performs no `peak_usage = max(peak_usage, allocated_blocks)`
update. -/
theorem pool_malloc_peak_usage_counterexample :
    ¬ ((pool_malloc (init_memory_pool "Small" 64 1 0 1) 0).2.allocated_blocks ≤
        (pool_malloc (init_memory_pool "Small" 64 1 0 1) 0).2.peak_usage) := by
  decide

/-- C3 (amended): `pool_malloc` never updates `peak_usage`; in every
state reachable from a fresh pool it still holds its initial value `0`
(hence it is trivially monotone, but the specified
`peak_usage = max(peak_usage, allocated_blocks)` update and the bound
`peak_usage ≥ allocated_blocks` do not hold). -/
theorem pool_peak_usage_stays_zero (name : String) (bsz K caps pid : Nat)
    (ops : List PoolOp) :
    (runOps (init_memory_pool name bsz K caps pid) ops).peak_usage = 0 := by
  rw [runOps_peak_usage]
  rfl

/-- C4: starting from a freshly initialized pool with `block_count = K`,
after any sequence of allocate/release operations the counters balance
(`total_allocations = total_deallocations + allocated_blocks`, the `Nat`
form of `allocated_blocks = total_allocations - total_deallocations`),
`allocated_blocks` never exceeds `block_count`, and whenever a block
validates for release (`ALLOC` magic and matching pool id)
`allocated_blocks ≥ 1`, so the `allocated_blocks--` in `pool_free`
can never wrap below zero. -/
theorem pool_counters_invariant (name : String) (bsz K caps pid : Nat)
    (ops : List PoolOp) :
    (runOps (init_memory_pool name bsz K caps pid) ops).total_allocations
      = (runOps (init_memory_pool name bsz K caps pid) ops).total_deallocations
        + (runOps (init_memory_pool name bsz K caps pid) ops).allocated_blocks ∧
    (runOps (init_memory_pool name bsz K caps pid) ops).allocated_blocks
      ≤ (runOps (init_memory_pool name bsz K caps pid) ops).block_count ∧
    (∀ i, ((runOps (init_memory_pool name bsz K caps pid) ops).blocks i).magic
          = POOL_MAGIC_ALLOC →
      1 ≤ (runOps (init_memory_pool name bsz K caps pid) ops).allocated_blocks) := by
  obtain ⟨hK, _, _, hnd, hlt, hmagic, hlen, hcnt⟩ :=
    runOps_PoolInv (init_PoolInv name bsz K caps pid) ops
  refine ⟨hcnt, by omega, ?_⟩
  intro i hmag
  obtain ⟨hiK, hni⟩ := (hmagic i).1 hmag
  have := length_lt_of_nodup_lt_avoid hnd hlt hiK hni
  omega

/-- C4 witness: the invariant instantiated on a two-block pool after an
allocation and a release. -/
theorem pool_counters_invariant_witness :
    (runOps (init_memory_pool "Small" 64 2 0 1)
        [PoolOp.alloc 0, PoolOp.free 1]).total_allocations
      = (runOps (init_memory_pool "Small" 64 2 0 1)
          [PoolOp.alloc 0, PoolOp.free 1]).total_deallocations
        + (runOps (init_memory_pool "Small" 64 2 0 1)
            [PoolOp.alloc 0, PoolOp.free 1]).allocated_blocks ∧
    (runOps (init_memory_pool "Small" 64 2 0 1)
        [PoolOp.alloc 0, PoolOp.free 1]).allocated_blocks
      ≤ (runOps (init_memory_pool "Small" 64 2 0 1)
          [PoolOp.alloc 0, PoolOp.free 1]).block_count ∧
    (∀ i, ((runOps (init_memory_pool "Small" 64 2 0 1)
            [PoolOp.alloc 0, PoolOp.free 1]).blocks i).magic = POOL_MAGIC_ALLOC →
      1 ≤ (runOps (init_memory_pool "Small" 64 2 0 1)
            [PoolOp.alloc 0, PoolOp.free 1]).allocated_blocks) :=
  pool_counters_invariant "Small" 64 2 0 1 [PoolOp.alloc 0, PoolOp.free 1]

/-- C5: from a fresh pool with `block_count = K`, the `K` first
allocations all succeed (consuming the whole free list, with
`allocation_failures` still `0`), and the `(K+1)`-th `pool_malloc`
returns NULL immediately with `allocation_failures` incremented from `0`
to `1` and every other field of the pool unchanged. -/
theorem pool_exhaustion (name : String) (bsz K caps pid now : Nat) :
    (runOps (init_memory_pool name bsz K caps pid)
        (List.replicate K (PoolOp.alloc 0))).total_allocations = K ∧
    (runOps (init_memory_pool name bsz K caps pid)
        (List.replicate K (PoolOp.alloc 0))).allocated_blocks = K ∧
    (runOps (init_memory_pool name bsz K caps pid)
        (List.replicate K (PoolOp.alloc 0))).allocation_failures = 0 ∧
    (runOps (init_memory_pool name bsz K caps pid)
        (List.replicate K (PoolOp.alloc 0))).free_list = [] ∧
    (pool_malloc (runOps (init_memory_pool name bsz K caps pid)
        (List.replicate K (PoolOp.alloc 0))) now).1 = none ∧
    (pool_malloc (runOps (init_memory_pool name bsz K caps pid)
        (List.replicate K (PoolOp.alloc 0))) now).2
      = { runOps (init_memory_pool name bsz K caps pid)
            (List.replicate K (PoolOp.alloc 0)) with allocation_failures := 1 } := by
  obtain ⟨hfl, hab, hta, _, haf, hmv⟩ :=
    runOps_replicate_alloc name bsz K caps pid K (Nat.le_refl K)
  rw [Nat.sub_self] at hfl
  have hnil : (runOps (init_memory_pool name bsz K caps pid)
      (List.replicate K (PoolOp.alloc 0))).free_list = [] := hfl
  refine ⟨hta, hab, haf, hnil, ?_, ?_⟩
  · rw [pool_malloc_nil now hmv hnil]
  · rw [pool_malloc_nil now hmv hnil, haf]

end MemPools

namespace MemPools

/-- C2 counterexample: releasing the same pointer twice does NOT produce
a distinguishable error return on the second call — `pool_free` answers
`true` both times (the claimed `InvalidBlock` return does not exist; the
only `false` returns are the NULL-argument guards).  The second call
does leave the pool state exactly as after the first call and lights the
error LED, but its return value equals the first call's. -/
theorem pool_free_double_free_counterexample :
    (pool_free ((pool_malloc (init_memory_pool "Small" 64 2 0 1) 0).2) 1).1
        = true ∧
    (pool_free ((pool_malloc (init_memory_pool "Small" 64 2 0 1) 0).2) 1).2.1
        = false ∧
    (pool_free doubleFreePool 1).1 = true ∧
    (pool_free doubleFreePool 1).2.1 = true ∧
    (pool_free doubleFreePool 1).2.2 = doubleFreePool :=
  ⟨rfl, rfl, rfl, rfl, rfl⟩

/-- C2 (amended): on a release whose recovered header fails validation
(wrong magic — e.g. an already-released block — or foreign pool id),
`pool_free` mutates nothing: the pool is returned exactly as it was, and
the failure is reported only by lighting `LED_POOL_ERROR`; the `bool`
return value is still `true` (it is `false` only for NULL arguments), so
a double release returns `true` both times with the state after the
second call equal to the state after the first. -/
theorem pool_free_invalid_preserves_state (p : Pool) (i : Nat)
    (hm : p.mutexValid = true)
    (hval : ¬((p.blocks i).magic = POOL_MAGIC_ALLOC ∧
      (p.blocks i).pool_id = p.pool_id)) :
    (pool_free p i).1 = true ∧ (pool_free p i).2.1 = true ∧
    (pool_free p i).2.2 = p := by
  rw [pool_free_invalid hm hval]
  exact ⟨rfl, rfl, rfl⟩

/-- C2 witness: the amended statement applied to the double-free state
(the header of block 1 now reads `POOL_MAGIC_FREE`, failing
validation). -/
theorem pool_free_invalid_preserves_state_witness :
    (pool_free doubleFreePool 1).1 = true ∧
    (pool_free doubleFreePool 1).2.1 = true ∧
    (pool_free doubleFreePool 1).2.2 = doubleFreePool :=
  pool_free_invalid_preserves_state doubleFreePool 1 rfl (by decide)

/-- C6: free-list reuse is LIFO.  From any pool state whose free list
starts with block `b` (carrying this pool's id), `pool_malloc` hands out
`b`; releasing `b` pushes it back on the free-list head (validation
succeeds, no error LED), so the next `pool_malloc` returns the same
block `b` again, and after that reallocation the block's header magic is
`POOL_MAGIC_ALLOC` once more. -/
theorem pool_lifo_roundtrip (p : Pool) (b : Nat) (rest : List Nat)
    (now now2 : Nat) (hm : p.mutexValid = true)
    (hfl : p.free_list = b :: rest)
    (hpid : (p.blocks b).pool_id = p.pool_id) :
    (pool_malloc p now).1 = some b ∧
    (pool_free (pool_malloc p now).2 b).1 = true ∧
    (pool_free (pool_malloc p now).2 b).2.1 = false ∧
    (pool_free (pool_malloc p now).2 b).2.2.free_list
      = b :: (pool_malloc p now).2.free_list ∧
    (pool_malloc (pool_free (pool_malloc p now).2 b).2.2 now2).1 = some b ∧
    ((pool_malloc (pool_free (pool_malloc p now).2 b).2.2 now2).2.blocks b).magic
      = POOL_MAGIC_ALLOC := by
  have e1 := pool_malloc_cons now hm hfl
  set p1 := (pool_malloc p now).2 with hp1
  have h1fst : (pool_malloc p now).1 = some b := by rw [e1]
  have h1mut : p1.mutexValid = true := by rw [hp1, e1]; exact hm
  have h1fl : p1.free_list = rest := by rw [hp1, e1]
  have h1pid : p1.pool_id = p.pool_id := by rw [hp1, e1]
  have h1blk : p1.blocks b
      = { p.blocks b with magic := POOL_MAGIC_ALLOC, alloc_time := now } := by
    rw [hp1, e1]
    show Function.update p.blocks b _ b = _
    rw [Function.update_same]
  have hval1 : (p1.blocks b).magic = POOL_MAGIC_ALLOC ∧
      (p1.blocks b).pool_id = p1.pool_id := by
    rw [h1blk, h1pid]
    exact ⟨rfl, hpid⟩
  have e2 := pool_free_valid h1mut hval1
  set p2 := (pool_free p1 b).2.2 with hp2
  have h2ret : (pool_free p1 b).1 = true := by rw [e2]
  have h2led : (pool_free p1 b).2.1 = false := by rw [e2]
  have h2mut : p2.mutexValid = true := by rw [hp2, e2]; exact h1mut
  have h2fl : p2.free_list = b :: rest := by
    rw [hp2, e2]
    show b :: p1.free_list = b :: rest
    rw [h1fl]
  have e3 := pool_malloc_cons now2 h2mut h2fl
  have h3fst : (pool_malloc p2 now2).1 = some b := by rw [e3]
  have h3blk : (pool_malloc p2 now2).2.blocks b
      = { p2.blocks b with magic := POOL_MAGIC_ALLOC, alloc_time := now2 } := by
    rw [e3]
    show Function.update p2.blocks b _ b = _
    rw [Function.update_same]
  refine ⟨h1fst, h2ret, h2led, ?_, h3fst, ?_⟩
  · rw [h2fl, h1fl]
  · rw [h3blk]

/-- C6 witness: the round-trip on a fresh two-block pool — block 1 is
allocated, released and allocated again. -/
theorem pool_lifo_roundtrip_witness :
    (pool_malloc (init_memory_pool "Small" 64 2 0 1) 3).1 = some 1 ∧
    (pool_free (pool_malloc (init_memory_pool "Small" 64 2 0 1) 3).2 1).1 = true ∧
    (pool_free (pool_malloc (init_memory_pool "Small" 64 2 0 1) 3).2 1).2.1 = false ∧
    (pool_free (pool_malloc (init_memory_pool "Small" 64 2 0 1) 3).2 1).2.2.free_list
      = 1 :: (pool_malloc (init_memory_pool "Small" 64 2 0 1) 3).2.free_list ∧
    (pool_malloc
      (pool_free (pool_malloc (init_memory_pool "Small" 64 2 0 1) 3).2 1).2.2 7).1
      = some 1 ∧
    ((pool_malloc
      (pool_free (pool_malloc (init_memory_pool "Small" 64 2 0 1) 3).2 1).2.2 7).2.blocks
        1).magic = POOL_MAGIC_ALLOC :=
  pool_lifo_roundtrip (init_memory_pool "Small" 64 2 0 1) 1 [0] 3 7 rfl
    (by decide) rfl

end MemPools

namespace MemPools

/-- Reading with `getD` after `set` at a different index. -/
theorem getD_set_ne {α : Type} (l : List α) {i j : Nat} (v d : α)
    (h : i ≠ j) : (l.set i v).getD j d = l.getD j d := by
  simp [List.getD_eq_getElem?_getD, List.getElem?_set_ne h]

/-- The scan `find?` only depends on the predicate's values on the list. -/
theorem find?_congr {α : Type} {p q : α → Bool} :
    ∀ (l : List α), (∀ a ∈ l, p a = q a) → l.find? p = l.find? q := by
  intro l
  induction l with
  | nil => intro _; rfl
  | cons a l ih =>
    intro h
    have ha := h a (List.mem_cons_self a l)
    by_cases hpa : p a = true
    · rw [List.find?_cons_of_pos l hpa, List.find?_cons_of_pos l (ha ▸ hpa)]
    · rw [List.find?_cons_of_neg l (by simpa using hpa),
        List.find?_cons_of_neg l (by rw [← ha]; simpa using hpa),
        ih fun b hb => h b (List.mem_cons_of_mem a hb)]

/-- Updating with `setPool` keeps the other pools readable unchanged. -/
theorem setPool_getD_ne (w : World) {i j : Nat} (p : Pool) (h : i ≠ j) :
    (setPool w i p).pools.getD j poolDefault = w.pools.getD j poolDefault :=
  getD_set_ne w.pools p poolDefault h

/-- The predicate `fitsAvailable` is unaffected by replacing a different pool. -/
theorem fitsAvailable_setPool_ne (w : World) (size : Nat) {i j : Nat}
    (p : Pool) (h : i ≠ j) :
    fitsAvailable (setPool w i p) size j = fitsAvailable w size j := by
  rw [fitsAvailable, fitsAvailable, setPool_getD_ne w p h]

/-- The scan of `smart_pool_malloc` over index list `l` returns the
first listed pool that both fits `size + 16` and has a non-empty free
list (handing out its free-list head), and `none` when no listed pool
does — the loop does NOT stop at the first fitting class when that
class is exhausted. -/
theorem smart_malloc_loop_find (size now : Nat) :
    ∀ (l : List Nat) (w : World), l.Nodup →
      (∀ i ∈ l, (w.pools.getD i poolDefault).mutexValid = true) →
      (smart_malloc_loop size now l w).1 =
        (l.find? (fitsAvailable w size)).map
          fun i => (i, (w.pools.getD i poolDefault).free_list.headD 0) := by
  intro l
  induction l with
  | nil => intro w _ _; rfl
  | cons i rest ih =>
    intro w hnd hmut
    have hmuti : (w.pools.getD i poolDefault).mutexValid = true :=
      hmut i (List.mem_cons_self i rest)
    have hni : i ∉ rest := (List.nodup_cons.1 hnd).1
    have hndr : rest.Nodup := (List.nodup_cons.1 hnd).2
    by_cases hfit : size + 16 ≤ (w.pools.getD i poolDefault).block_size
    · cases hfl : (w.pools.getD i poolDefault).free_list with
      | nil =>
        have hpred : fitsAvailable w size i = false := by
          rw [fitsAvailable, hfl]
          simp
        rw [List.find?_cons_of_neg rest (by rw [hpred]; simp)]
        have hstep : smart_malloc_loop size now (i :: rest) w
            = smart_malloc_loop size now rest
              (setPool w i (pool_malloc (w.pools.getD i poolDefault) now).2) := by
          rw [smart_malloc_loop, if_pos hfit,
            pool_malloc_nil now hmuti hfl]
        rw [hstep]
        have hsame : ∀ j ∈ rest,
            ((setPool w i (pool_malloc (w.pools.getD i poolDefault) now).2).pools.getD
              j poolDefault) = w.pools.getD j poolDefault := by
          intro j hj
          exact setPool_getD_ne w _ fun he => hni (he ▸ hj)
        rw [ih _ hndr (fun j hj => by rw [hsame j hj]; exact hmut j (List.mem_cons_of_mem i hj))]
        have hcongr : rest.find? (fitsAvailable
              (setPool w i (pool_malloc (w.pools.getD i poolDefault) now).2) size)
            = rest.find? (fitsAvailable w size) :=
          find?_congr rest fun a ha =>
            fitsAvailable_setPool_ne w size _ fun he => hni (he ▸ ha)
        rw [hcongr]
        cases hfind : rest.find? (fitsAvailable w size) with
        | none => rfl
        | some j =>
          have hj : j ∈ rest := List.mem_of_find?_eq_some hfind
          rw [Option.map_some', Option.map_some', hsame j hj]
      | cons b brest =>
        have hpred : fitsAvailable w size i = true := by
          rw [fitsAvailable, decide_eq_true hfit, hfl]
          rfl
        rw [List.find?_cons_of_pos rest hpred]
        have hstep : smart_malloc_loop size now (i :: rest) w
            = (some (i, b),
                setPool w i (pool_malloc (w.pools.getD i poolDefault) now).2) := by
          rw [smart_malloc_loop, if_pos hfit, pool_malloc_cons now hmuti hfl]
        rw [hstep, Option.map_some', hfl]
        rfl
    · have hpred : fitsAvailable w size i = false := by
        rw [fitsAvailable, decide_eq_false hfit, Bool.false_and]
      rw [List.find?_cons_of_neg rest (by rw [hpred]; simp)]
      have hstep : smart_malloc_loop size now (i :: rest) w
          = smart_malloc_loop size now rest w := by
        rw [smart_malloc_loop, if_neg hfit]
      rw [hstep, ih _ hndr fun j hj => hmut j (List.mem_cons_of_mem i hj)]

end MemPools

namespace MemPools

/-- C1 counterexample: with size classes `[64, 256, 1024]` and the
256-byte pool exhausted, a request for 200 bytes is served by the
1024-byte pool (pool index 2) — `smart_pool_malloc` cascades past the
exhausted 256-byte class to the next larger class instead of falling
through to the general allocator. -/
theorem smart_pool_malloc_cascades_counterexample :
    (smart_pool_malloc worldC1 200 0).1 = AllocSource.fromPool 2 1 := by
  decide

/-- C1 (amended): `smart_pool_malloc` scans the size classes in
ascending index order and serves the request from the FIRST class whose
`block_size` is at least `size + 16` AND whose free list is non-empty —
an exhausted fitting class is skipped in favour of the next larger one —
and only when no class both fits and has a free block does it fall
through to the general-purpose allocator; in particular a request no
class fits (e.g. 2000 bytes against `[64, 256, 1024]`) bypasses every
pool. -/
theorem smart_pool_malloc_first_available (w : World) (size now : Nat)
    (hm : ∀ p ∈ w.pools, p.mutexValid = true) :
    (smart_pool_malloc w size now).1 =
      match (List.range w.pools.length).find? (fitsAvailable w size) with
      | some i => AllocSource.fromPool i
          ((w.pools.getD i poolDefault).free_list.headD 0)
      | none => AllocSource.general := by
  have hmut : ∀ i ∈ List.range w.pools.length,
      (w.pools.getD i poolDefault).mutexValid = true := by
    intro i hi
    rw [List.mem_range] at hi
    rw [List.getD_eq_getElem w.pools poolDefault hi]
    exact hm _ (List.getElem_mem hi)
  have hloop := smart_malloc_loop_find size now (List.range w.pools.length) w
    (List.nodup_range _) hmut
  rw [smart_pool_malloc]
  rcases hres : smart_malloc_loop size now (List.range w.pools.length) w
    with ⟨res, w'⟩
  rw [hres] at hloop
  cases hfind : (List.range w.pools.length).find? (fitsAvailable w size) with
  | none =>
    rw [hfind, Option.map_none'] at hloop
    rw [show res = (none : Option (Nat × Nat)) from hloop]
  | some i =>
    rw [hfind, Option.map_some'] at hloop
    rw [show res = some (i, (w.pools.getD i poolDefault).free_list.headD 0)
      from hloop]

/-- C1 witness: on the same registry, a 100-byte request (fitting the
exhausted 256-class's smaller sibling is impossible: 100 + 16 > 64, and
the 256 class is empty) is served by the first available class, pool 2. -/
theorem smart_pool_malloc_first_available_witness :
    (smart_pool_malloc worldC1 100 0).1 =
      match (List.range worldC1.pools.length).find? (fitsAvailable worldC1 100) with
      | some i => AllocSource.fromPool i
          ((worldC1.pools.getD i poolDefault).free_list.headD 0)
      | none => AllocSource.general :=
  smart_pool_malloc_first_available worldC1 100 0 (by decide)

/-- C7 (code behavior at the failing input): for EVERY non-NULL pointer —
in particular one obtained from the general-purpose fallback allocator —
`smart_pool_free` returns `true` already at `pools[0]` (whose
`pool_free` returns `true` even when validation fails) and therefore
never reaches `heap_caps_free`: the general allocator's release path is
unreachable for non-NULL pointers, contradicting the specified dispatch. -/
theorem smart_pool_free_never_reaches_general (w : World) (ptr : Ptr)
    (hp : ptr ≠ Ptr.null) (h0 : 0 < w.pools.length)
    (hm : (w.pools.getD 0 poolDefault).mutexValid = true) :
    (smart_pool_free w ptr).1 = true ∧
    (smart_pool_free w ptr).2.generalFreed = w.generalFreed := by
  obtain ⟨n, hn⟩ : ∃ n, w.pools.length = n + 1 :=
    ⟨w.pools.length - 1, by omega⟩
  have hfirst : ∃ w', wpool_free w 0 ptr = (true, w') ∧
      w'.generalFreed = w.generalFreed := by
    cases ptr with
    | null => exact absurd rfl hp
    | poolPtr pi bi =>
      show ∃ w', (if (w.pools.getD 0 poolDefault).mutexValid then
          if (readHeader w (Ptr.poolPtr pi bi)).magic = POOL_MAGIC_ALLOC ∧
              (readHeader w (Ptr.poolPtr pi bi)).pool_id
                = (w.pools.getD 0 poolDefault).pool_id then
            if pi = 0 then
              (true, setPool w 0 (pool_free (w.pools.getD 0 poolDefault) bi).2.2)
            else (true, { w with corrupted := true })
          else (true, w)
        else (false, w)) = (true, w') ∧ w'.generalFreed = w.generalFreed
      rw [if_pos hm]
      by_cases hval : (readHeader w (Ptr.poolPtr pi bi)).magic = POOL_MAGIC_ALLOC ∧
          (readHeader w (Ptr.poolPtr pi bi)).pool_id
            = (w.pools.getD 0 poolDefault).pool_id
      · rw [if_pos hval]
        by_cases hpj : pi = 0
        · rw [if_pos hpj]
          exact ⟨_, rfl, rfl⟩
        · rw [if_neg hpj]
          exact ⟨_, rfl, rfl⟩
      · rw [if_neg hval]
        exact ⟨_, rfl, rfl⟩
    | genPtr hdr =>
      show ∃ w', (if (w.pools.getD 0 poolDefault).mutexValid then
          if hdr.magic = POOL_MAGIC_ALLOC ∧
              hdr.pool_id = (w.pools.getD 0 poolDefault).pool_id then
            (true, { w with corrupted := true })
          else (true, w)
        else (false, w)) = (true, w') ∧ w'.generalFreed = w.generalFreed
      rw [if_pos hm]
      by_cases hval : hdr.magic = POOL_MAGIC_ALLOC ∧
          hdr.pool_id = (w.pools.getD 0 poolDefault).pool_id
      · rw [if_pos hval]
        exact ⟨_, rfl, rfl⟩
      · rw [if_neg hval]
        exact ⟨_, rfl, rfl⟩
  obtain ⟨w', hw', hwg⟩ := hfirst
  rw [smart_pool_free, hn, List.range_succ_eq_map, smart_free_loop, hw']
  exact ⟨rfl, hwg⟩

/-- C7 witness: a pointer from the general-purpose heap (garbage header)
passed to `smart_pool_free` on an initialized registry — the call
reports success and the general allocator's free count is untouched. -/
theorem smart_pool_free_never_reaches_general_witness :
    (smart_pool_free worldC7 (Ptr.genPtr garbageHeader)).1 = true ∧
    (smart_pool_free worldC7 (Ptr.genPtr garbageHeader)).2.generalFreed
      = worldC7.generalFreed :=
  smart_pool_free_never_reaches_general worldC7 (Ptr.genPtr garbageHeader)
    (by decide) (by decide) rfl

end MemPools

namespace HeapMgmt

/-- A successful `find_allocation_by_ptr` returns an in-bounds slot that is active and
holds `ptr`. -/
theorem find_allocation_by_ptr_some {a : List MemAllocation} {ptr i : Nat}
    (h : find_allocation_by_ptr a ptr = some i) :
    i < a.length ∧ (a.getD i default).is_active = true ∧
      (a.getD i default).ptr = ptr := by
  rw [find_allocation_by_ptr] at h
  have hpred := List.find?_some h
  rw [Bool.and_eq_true] at hpred
  have hactive : (a.getD i default).is_active = true := hpred.1
  have hptr : (a.getD i default).ptr = ptr :=
    eq_of_beq hpred.2
  refine ⟨?_, hactive, hptr⟩
  by_contra hlen
  rw [List.getD_eq_default a default (by omega)] at hactive
  exact Bool.false_ne_true hactive

/-- Unfolding `tracked_free` when the slot scan finds `ptr`. -/
theorem tracked_free_found (st : TrackerState) (ptr : Nat) (d : String)
    {i : Nat} (hp : ¬ ptr = 0)
    (hflags : (st.monitoring_enabled && st.mutexValid && true) = true)
    (hfind : find_allocation_by_ptr st.allocations ptr = some i) :
    tracked_free st ptr d true =
      (1, { st with
        allocations := st.allocations.set i
          { st.allocations.getD i default with is_active := false }
        stats := { st.stats with
          total_deallocations := st.stats.total_deallocations + 1
          current_allocations := st.stats.current_allocations - 1
          total_bytes_deallocated :=
            st.stats.total_bytes_deallocated
              + (st.allocations.getD i default).size } }) := by
  rw [tracked_free, if_neg hp, if_pos hflags, hfind]

/-- Unfolding `tracked_free` when no active slot holds `ptr`: the raw
free still runs (count `1`), the tracker is untouched. -/
theorem tracked_free_not_found (st : TrackerState) (ptr : Nat) (d : String)
    (takeOk : Bool) (hp : ¬ ptr = 0)
    (hfind : find_allocation_by_ptr st.allocations ptr = none) :
    tracked_free st ptr d takeOk = (1, st) := by
  rw [tracked_free, if_neg hp]
  by_cases hflags : (st.monitoring_enabled && st.mutexValid && takeOk) = true
  · rw [if_pos hflags, hfind]
  · rw [if_neg hflags]

/-- Reading with `getD` after `set` at the same (in-bounds) index. -/
theorem getD_set_self {α : Type} (l : List α) {i : Nat} (v d : α)
    (h : i < l.length) : (l.set i v).getD i d = v := by
  simp [List.getD_eq_getElem?_getD, List.getElem?_set_self', h]

/-- Unfolding `tracked_free` when monitoring is off, the mutex is gone or
the take timed out: the raw free still runs, the tracker is untouched. -/
theorem tracked_free_no_flags (st : TrackerState) (ptr : Nat) (d : String)
    (takeOk : Bool) (hp : ¬ ptr = 0)
    (hflags : ¬ (st.monitoring_enabled && st.mutexValid && takeOk) = true) :
    tracked_free st ptr d takeOk = (1, st) := by
  rw [tracked_free, if_neg hp, if_neg hflags]

/-- The raw free count of `tracked_free` on a non-NULL pointer is `1` on
every path. -/
theorem tracked_free_fst (st : TrackerState) (ptr : Nat) (d : String)
    (takeOk : Bool) (hp : ¬ ptr = 0) :
    (tracked_free st ptr d takeOk).1 = 1 := by
  rw [tracked_free, if_neg hp]

/-- Membership in the leak scan: slot `i` is reported exactly when it is
a table index whose entry is active with `(now - timestamp) / 1000`
milliseconds strictly above the 30000 ms threshold. -/
theorem detect_memory_leaks_mem (st : TrackerState) (now : Nat)
    (hm : st.mutexValid = true) (i : Nat) :
    i ∈ (detect_memory_leaks st now true).1 ↔
      (i < MAX_ALLOCATIONS ∧
       (st.allocations.getD i default).is_active = true ∧
       30000 < (now - (st.allocations.getD i default).timestamp) / 1000) := by
  rw [detect_memory_leaks, if_pos (by rw [hm]; rfl)]
  rw [List.mem_filter, List.mem_range]
  constructor
  · rintro ⟨hi, hcond⟩
    rw [Bool.and_eq_true] at hcond
    exact ⟨hi, hcond.1, of_decide_eq_true hcond.2⟩
  · rintro ⟨hi, hact, hage⟩
    refine ⟨hi, ?_⟩
    rw [Bool.and_eq_true]
    exact ⟨hact, decide_eq_true hage⟩

/-- The leak scan does not mutate the tracker. -/
theorem detect_memory_leaks_state (st : TrackerState) (now : Nat)
    (takeOk : Bool) : (detect_memory_leaks st now takeOk).2 = st := by
  rw [detect_memory_leaks]
  by_cases h : (st.mutexValid && takeOk) = true
  · rw [if_pos h]
  · rw [if_neg h]

end HeapMgmt

/-! ## Claim theorems: heap tracker -/

namespace HeapMgmt

/-- C8: when every slot of the tracking table is active, a
`tracked_malloc` whose raw `heap_caps_malloc` succeeded still hands the
pointer to the caller and leaves the tracker completely unchanged (no
slot written, no counter touched) — only a capacity warning is logged. -/
theorem tracked_malloc_full_table (st : TrackerState) (size caps : Nat)
    (description : String) (p now : Nat) (takeOk : Bool)
    (hlen : st.allocations.length = MAX_ALLOCATIONS)
    (hfull : ∀ s ∈ st.allocations, s.is_active = true) :
    tracked_malloc st size caps description (some p) now takeOk
      = (some p, st) := by
  rw [tracked_malloc]
  by_cases hflags : (st.monitoring_enabled && st.mutexValid && takeOk) = true
  · rw [if_pos hflags]
    have hfind : find_free_allocation_slot st.allocations = none := by
      rw [find_free_allocation_slot]
      refine List.find?_eq_none.2 ?_
      intro i hi
      rw [List.mem_range] at hi
      have hmem : st.allocations.getD i default ∈ st.allocations := by
        rw [List.getD_eq_getElem st.allocations default (by rw [hlen]; exact hi)]
        exact List.getElem_mem _
      show ¬ (!(st.allocations.getD i default).is_active) = true
      rw [hfull _ hmem]
      decide
    rw [hfind]
  · rw [if_neg hflags]

/-- C8 witness: a table with all 100 slots active. -/
theorem tracked_malloc_full_table_witness :
    tracked_malloc fullTableC8 40 8 "new" (some 1000) 7 true
      = (some 1000, fullTableC8) :=
  tracked_malloc_full_table fullTableC8 40 8 "new" 1000 7 true (by decide)
    (by intro s hs; rw [List.eq_of_mem_replicate hs])

/-- C9: the leak scan mutates no tracker state; it reports exactly the
table indices whose entry is active with integer-millisecond age
`(now - timestamp) / 1000` strictly above the 30000 ms threshold — so an
entry recorded at time `T` with no matching release appears whenever the
scan time makes that age exceed the threshold — and after a matching
`tracked_free` (which deactivates the entry's slot) that slot is no
longer reported at the same scan time. -/
theorem detect_memory_leaks_spec (st : TrackerState) (now : Nat)
    (hm : st.mutexValid = true) :
    (detect_memory_leaks st now true).2 = st ∧
    (∀ i, i ∈ (detect_memory_leaks st now true).1 ↔
      (i < MAX_ALLOCATIONS ∧
       (st.allocations.getD i default).is_active = true ∧
       30000 < (now - (st.allocations.getD i default).timestamp) / 1000)) ∧
    (∀ ptr d i, ptr ≠ 0 → st.monitoring_enabled = true →
      find_allocation_by_ptr st.allocations ptr = some i →
      i ∉ (detect_memory_leaks (tracked_free st ptr d true).2 now true).1) := by
  refine ⟨detect_memory_leaks_state st now true,
    fun i => detect_memory_leaks_mem st now hm i, ?_⟩
  intro ptr d i hptr hmon hfind
  have hflags : (st.monitoring_enabled && st.mutexValid && true) = true := by
    rw [hmon, hm]
    rfl
  have hfound := find_allocation_by_ptr_some hfind
  have h1 := tracked_free_found st ptr d hptr hflags hfind
  set t1 := (tracked_free st ptr d true).2 with ht1
  have ht1eq : t1 = { st with
      allocations := st.allocations.set i
        { st.allocations.getD i default with is_active := false }
      stats := { st.stats with
        total_deallocations := st.stats.total_deallocations + 1
        current_allocations := st.stats.current_allocations - 1
        total_bytes_deallocated :=
          st.stats.total_bytes_deallocated
            + (st.allocations.getD i default).size } } := by
    rw [ht1, h1]
  have hmut1 : t1.mutexValid = true := by rw [ht1eq]; exact hm
  have hinact : (t1.allocations.getD i default).is_active = false := by
    rw [ht1eq]
    show ((st.allocations.set i
      { st.allocations.getD i default with is_active := false }).getD
        i default).is_active = false
    rw [getD_set_self st.allocations _ default hfound.1]
  intro hmem
  obtain ⟨_, hact, _⟩ := (detect_memory_leaks_mem t1 now hmut1 i).1 hmem
  rw [hinact] at hact
  exact Bool.false_ne_true hact

/-- C9 witness: the scan specification instantiated on `leakTableC9` at
scan time `7 + 30001000` µs, where slot 0's whole-millisecond age is
30001 > 30000. -/
theorem detect_memory_leaks_spec_witness :
    (detect_memory_leaks leakTableC9 (7 + 30001000) true).2 = leakTableC9 ∧
    (∀ i, i ∈ (detect_memory_leaks leakTableC9 (7 + 30001000) true).1 ↔
      (i < MAX_ALLOCATIONS ∧
       (leakTableC9.allocations.getD i default).is_active = true ∧
       30000 < ((7 + 30001000) -
         (leakTableC9.allocations.getD i default).timestamp) / 1000)) ∧
    (∀ ptr d i, ptr ≠ 0 → leakTableC9.monitoring_enabled = true →
      find_allocation_by_ptr leakTableC9.allocations ptr = some i →
      i ∉ (detect_memory_leaks
        (tracked_free leakTableC9 ptr d true).2 (7 + 30001000) true).1) :=
  detect_memory_leaks_spec leakTableC9 (7 + 30001000) rfl

end HeapMgmt

namespace HeapMgmt

/-- C10: for a non-NULL pointer `p`, every call to `tracked_free p`
performs the raw `heap_caps_free(p)` exactly once, whatever the state of
monitoring, the mutex take, or the tracking table; in particular calling
`tracked_free` twice on the same pointer (tracked in at most one active
slot) re-issues the raw free on the second call while leaving the
tracker's table and counters exactly as the first call left them. -/
theorem tracked_free_unconditional_raw_free (st : TrackerState) (ptr : Nat)
    (d1 d2 : String) (takeOk1 takeOk2 : Bool) (hp : ¬ ptr = 0)
    (huniq : ∀ j, j < st.allocations.length → ∀ k, k < st.allocations.length →
      ((st.allocations.getD j default).is_active = true ∧
        (st.allocations.getD j default).ptr = ptr) →
      ((st.allocations.getD k default).is_active = true ∧
        (st.allocations.getD k default).ptr = ptr) → j = k) :
    (tracked_free st ptr d1 takeOk1).1 = 1 ∧
    (tracked_free (tracked_free st ptr d1 true).2 ptr d2 takeOk2).1 = 1 ∧
    (tracked_free (tracked_free st ptr d1 true).2 ptr d2 takeOk2).2
      = (tracked_free st ptr d1 true).2 := by
  refine ⟨tracked_free_fst st ptr d1 takeOk1 hp,
    tracked_free_fst _ ptr d2 takeOk2 hp, ?_⟩
  set t1 := (tracked_free st ptr d1 true).2 with ht1
  by_cases hflags : (st.monitoring_enabled && st.mutexValid && true) = true
  · cases hfind : find_allocation_by_ptr st.allocations ptr with
    | none =>
      have ht1eq : t1 = st := by
        rw [ht1, tracked_free_not_found st ptr d1 true hp hfind]
      rw [ht1eq, tracked_free_not_found st ptr d2 takeOk2 hp hfind]
    | some j =>
      have hfound := find_allocation_by_ptr_some hfind
      have ht1eq : t1 = { st with
          allocations := st.allocations.set j
            { st.allocations.getD j default with is_active := false }
          stats := { st.stats with
            total_deallocations := st.stats.total_deallocations + 1
            current_allocations := st.stats.current_allocations - 1
            total_bytes_deallocated :=
              st.stats.total_bytes_deallocated
                + (st.allocations.getD j default).size } } := by
        rw [ht1, tracked_free_found st ptr d1 hp hflags hfind]
      have halloc : t1.allocations = st.allocations.set j
          { st.allocations.getD j default with is_active := false } := by
        rw [ht1eq]
      have hnone : find_allocation_by_ptr t1.allocations ptr = none := by
        rw [find_allocation_by_ptr]
        refine List.find?_eq_none.2 ?_
        intro k hk
        rw [List.mem_range] at hk
        show ¬ ((t1.allocations.getD k default).is_active &&
          (t1.allocations.getD k default).ptr == ptr) = true
        intro hcontra
        rw [Bool.and_eq_true] at hcontra
        obtain ⟨hact, hbeq⟩ := hcontra
        by_cases hkj : k = j
        · subst hkj
          rw [halloc, getD_set_self st.allocations _ default hfound.1] at hact
          exact Bool.false_ne_true hact
        · rw [halloc, MemPools.getD_set_ne st.allocations _ default
            fun he => hkj he.symm] at hact hbeq
          have hklen : k < st.allocations.length := by
            by_contra hkl
            rw [List.getD_eq_default st.allocations default (by omega)] at hact
            exact Bool.false_ne_true hact
          exact hkj (huniq k hklen j hfound.1 ⟨hact, eq_of_beq hbeq⟩
            ⟨hfound.2.1, hfound.2.2⟩)
      rw [tracked_free_not_found t1 ptr d2 takeOk2 hp hnone]
  · have ht1eq : t1 = st := by
      rw [ht1, tracked_free_no_flags st ptr d1 true hp hflags]
    have hflags2 : ¬ (st.monitoring_enabled && st.mutexValid && takeOk2)
        = true := by
      intro hcontra
      rw [Bool.and_eq_true] at hcontra
      apply hflags
      rw [Bool.and_eq_true]
      exact ⟨hcontra.1, rfl⟩
    rw [ht1eq, tracked_free_no_flags st ptr d2 takeOk2 hp hflags2]

/-- C10 witness: the double free of pointer 5 — both calls issue exactly
one raw free (the first with a timed-out mutex take, the second after a
successful take), and the second call leaves the tracker unchanged. -/
theorem tracked_free_unconditional_raw_free_witness :
    (tracked_free singleEntryC10 5 "a" false).1 = 1 ∧
    (tracked_free (tracked_free singleEntryC10 5 "a" true).2 5 "b" true).1 = 1 ∧
    (tracked_free (tracked_free singleEntryC10 5 "a" true).2 5 "b" true).2
      = (tracked_free singleEntryC10 5 "a" true).2 :=
  tracked_free_unconditional_raw_free singleEntryC10 5 "a" "b" false true
    (by decide) (by set_option maxRecDepth 10000 in decide)

end HeapMgmt
